import Mathlib

/-!
# Verification of the VolView GTC-2025 demo result-cache and panel logic

A shallow embedding of the TypeScript sources of the repository:

* the three Pinia result caches (`src/store/nv-generate.ts`, `src/store/vista3d.ts`,
  and the nv-segment store), each a record `resultsById` keyed by string ids plus an
  insertion-ordered id list, with `set` / `get` / `remove` operations;
* the payload-construction and cache-consumption parts of the feature panels
  (`MAISIModule.vue`, `NVGenerateCTModule.vue`, `NVSegmentModule.vue`, the chat
  panels, and their earlier variants among the unnamed sources).

JS semantics are modelled as follows: a JS `Record<string, T>` is an association
list with at most one entry per key (`recordSet` overwrites in place or appends at
the end, `delete` removes the key, `in` tests key presence); a `Maybe<string>`
argument is `Option String`, and the JS falsiness test `!id` used by the getters is
true exactly for `none` and for the empty string; JS functions that cannot throw
are total Lean functions.
-/

namespace VolViewDemo

/-- State of one result cache: the insertion-ordered id list (`nvGenerateIds`,
`vista3dIds`, `nvSegmentIds`, `maisiIds` in the sources) and the keyed record
`resultsById`. -/
structure Cache (α : Type) where
  ids : List String
  resultsById : List (String × α)
  deriving Repr, DecidableEq

/-- The empty cache, the initial store state (`ref([])` / `reactive({})`). -/
def emptyCache (α : Type) : Cache α := ⟨[], []⟩

/-- JS `id in resultsById`: key-presence test on the record. -/
def hasKey {α : Type} (m : List (String × α)) (id : String) : Bool :=
  m.any (fun e => e.1 == id)

/-- JS `resultsById[id] = result`: overwrite the entry when the key is present,
otherwise add a new property (modelled at the end of the list). -/
def recordSet {α : Type} (m : List (String × α)) (id : String) (v : α) :
    List (String × α) :=
  if hasKey m id then m.map (fun e => if e.1 == id then (id, v) else e)
  else m ++ [(id, v)]

/-- JS `resultsById[id]` read (property lookup; `undefined` is `none`). -/
def recordGet? {α : Type} (m : List (String × α)) (id : String) : Option α :=
  (m.find? (fun e => e.1 == id)).map (fun e => e.2)

/-- JS `delete resultsById[id]`. -/
def recordDelete {α : Type} (m : List (String × α)) (id : String) :
    List (String × α) :=
  m.filter (fun e => ¬ e.1 == id)

/-- JS `const index = ids.indexOf(id); if (index > -1) ids.splice(index, 1)`:
remove the first occurrence of `id`, if any. -/
def spliceFirst (l : List String) (id : String) : List String :=
  match l with
  | [] => []
  | x :: xs => if x == id then xs else x :: spliceFirst xs id

/-- The shared `set` body of `setNVGenerateResult` / `setMAISIResult` /
`setNVSegmentResult` (`nv-generate.ts` lines 19–24 and the replicas):
push the id onto the ordered list only when it is not yet a key, then store. -/
def setResult {α : Type} (c : Cache α) (id : String) (result : α) : Cache α :=
  { ids := if hasKey c.resultsById id then c.ids else c.ids ++ [id]
    resultsById := recordSet c.resultsById id result }

/-- The shared `get` body (`nv-generate.ts` lines 29–32 and the replicas):
`if (!id) return null; return resultsById[id] ?? null`. -/
def getResult {α : Type} (c : Cache α) (id : Option String) : Option α :=
  match id with
  | none => none
  | some s => if s == "" then none else recordGet? c.resultsById s

/-- The shared `remove` body (`nv-generate.ts` lines 39–47 and the replicas):
early return when the key is absent, otherwise splice the id out of the
ordered list and delete the record entry. -/
def removeResult {α : Type} (c : Cache α) (id : String) : Cache α :=
  if hasKey c.resultsById id then
    { ids := spliceFirst c.ids id
      resultsById := recordDelete c.resultsById id }
  else c

/-- `setNVGenerateResult` from `src/store/nv-generate.ts`. -/
def setNVGenerateResult {α : Type} : Cache α → String → α → Cache α := setResult

/-- `getNVGenerateResult` from `src/store/nv-generate.ts`. -/
def getNVGenerateResult {α : Type} : Cache α → Option String → Option α := getResult

/-- `removeNVGenerateResult` from `src/store/nv-generate.ts`. -/
def removeNVGenerateResult {α : Type} : Cache α → String → Cache α := removeResult

/-- `setNVSegmentResult` from the nv-segment store (unnamed part_007). -/
def setNVSegmentResult {α : Type} : Cache α → String → α → Cache α := setResult

/-- `getNVSegmentResult` from the nv-segment store (unnamed part_007). -/
def getNVSegmentResult {α : Type} : Cache α → Option String → Option α := getResult

/-- `removeNVSegmentResult` from the nv-segment store (unnamed part_007). -/
def removeNVSegmentResult {α : Type} : Cache α → String → Cache α := removeResult

/-- The payload universe of the vista3d store: `Blob | ArrayBuffer | Uint8Array`.
A `Blob` is a sequence of binary parts; the raw buffer types carry their bytes. -/
inductive BinData where
  | blob (parts : List (List Nat))
  | arrayBuffer (bytes : List Nat)
  | uint8Array (bytes : List Nat)
  deriving Repr, DecidableEq

/-- `result instanceof Blob` check of `setVista3dResult`. -/
def isBlob : BinData → Bool
  | .blob _ => true
  | _ => false

/-- The conversion done inside `setVista3dResult` (`vista3d.ts` lines 23–31):
keep a `Blob` as is, otherwise `new Blob([result])` wraps the raw buffer as
the single part of a fresh blob. -/
def toStoredBlob : BinData → BinData
  | .blob parts => .blob parts
  | .arrayBuffer bytes => .blob [bytes]
  | .uint8Array bytes => .blob [bytes]

/-- `setVista3dResult` from `src/store/vista3d.ts` (lines 22–38): convert the
input to a `Blob`, then store like the other caches. -/
def setVista3dResult (c : Cache BinData) (id : String) (result : BinData) :
    Cache BinData :=
  setResult c id (toStoredBlob result)

/-- `getVista3dResult` from `src/store/vista3d.ts` (lines 46–49). -/
def getVista3dResult : Cache BinData → Option String → Option BinData := getResult

/-- `removeVista3dResult` from `src/store/vista3d.ts` (lines 56–64). -/
def removeVista3dResult : Cache BinData → String → Cache BinData := removeResult

/-- An abstract cache operation, for stating invariants over arbitrary
operation sequences. `get` does not change the state. -/
inductive CacheOp (α : Type) where
  | set (id : String) (v : α)
  | get (id : Option String)
  | remove (id : String)

/-- Apply one cache operation to the state. -/
def applyOp {α : Type} (c : Cache α) : CacheOp α → Cache α
  | .set id v => setResult c id v
  | .get _ => c
  | .remove id => removeResult c id

/-- Run a sequence of cache operations from a starting state. -/
def runOps {α : Type} (c : Cache α) (ops : List (CacheOp α)) : Cache α :=
  ops.foldl applyOp c

/-- The cache invariant from the spec: an id is on the ordered list iff it is a
key of the mapping, and the ordered list has no duplicates. -/
def CacheInv {α : Type} (c : Cache α) : Prop :=
  (∀ id, id ∈ c.ids ↔ hasKey c.resultsById id = true) ∧ c.ids.Nodup

/-- Operations that mutate the vista3d store: the backend push (`set`) and the
panel cleanup (`remove`). `get` does not mutate. -/
inductive Vista3dOp where
  | set (id : String) (v : BinData)
  | remove (id : String)

/-- Apply one vista3d store mutation. -/
def applyVista3dOp (c : Cache BinData) : Vista3dOp → Cache BinData
  | .set id v => setVista3dResult c id v
  | .remove id => removeVista3dResult c id

/-- Run a sequence of vista3d store mutations from a starting state. -/
def runVista3dOps (c : Cache BinData) (ops : List Vista3dOp) : Cache BinData :=
  ops.foldl applyVista3dOp c

/-- All values held by the record are Blobs. -/
def AllBlobs (c : Cache BinData) : Prop :=
  ∀ e ∈ c.resultsById, isBlob e.2 = true

/-! ### Chat panels (unnamed part_004 and part_006) -/

/-- `Message.sender` of the chat panels: `'user' | 'bot'`. -/
inductive Sender where
  | user
  | bot
  deriving Repr, DecidableEq

/-- A chat `Message` (the reactive `id` field is presentation-only and
omitted). -/
structure Message where
  text : String
  sender : Sender
  deriving Repr, DecidableEq

/-- A backend conversation turn `{ role, content }`. -/
structure Turn where
  role : String
  content : String
  deriving Repr, DecidableEq

/-- JS `String.prototype.trim()`: strip leading and trailing whitespace.
(Modelled directly on character lists so that it evaluates by `decide`.) -/
def jsTrim (s : String) : String :=
  ⟨((s.data.dropWhile Char.isWhitespace).reverse.dropWhile
      Char.isWhitespace).reverse⟩

/-- The role/content mapping both chat panels apply to a message:
`role: msg.sender === 'user' ? 'user' : 'assistant', content: msg.text`. -/
def toTurn (m : Message) : Turn :=
  { role := if m.sender = Sender.user then "user" else "assistant"
    content := m.text }

/-- The analysis payload `{ prompt, history }` handed to
`backendModelStore.setAnalysisInput` before `multimodalLlmAnalysis`. -/
structure AnalysisPayload where
  prompt : String
  history : List Turn
  deriving Repr, DecidableEq

/-- Payload construction of `sendMessage` in unnamed part_004 (the
NV-Reason-CXR panel): the history is mapped from `chatHistory` BEFORE the new
user message is appended, then the message is appended and the payload built
from the pre-append history. Returns the payload (none when the trimmed text
is empty and the send is a no-op) and the chat log after appending the user
turn. -/
def sendMessagePayload_reason (chatHistory : List Message)
    (newMessage : String) : Option AnalysisPayload × List Message :=
  let text := jsTrim newMessage
  if text = "" then (none, chatHistory)
  else
    let history := chatHistory.map toTurn
    let appended := chatHistory ++ [⟨text, Sender.user⟩]
    (some ⟨text, history⟩, appended)

/-- Payload construction of `sendMessage` in unnamed part_006 (the
AI-assistant panel): `appendMessage(text, 'user')` runs FIRST, and the history
is then mapped from `currentMessages`, which already contains the new user
message. -/
def sendMessagePayload_assistant (chatHistory : List Message)
    (newMessage : String) : Option AnalysisPayload × List Message :=
  let text := jsTrim newMessage
  if text = "" then (none, chatHistory)
  else
    let appended := chatHistory ++ [⟨text, Sender.user⟩]
    let history := appended.map toTurn
    (some ⟨text, history⟩, appended)

/-- Outcome of the awaited remote call, as seen by the panel: either the call
resolved (carrying the value the panel reads afterwards) or it rejected. -/
inductive RemoteOutcome (β : Type) where
  | ok (v : β)
  | error

/-- The full `sendMessage` control flow of the part_004 chat panel, observed
through its consumer-visible output: the chat log and the `isTyping` flag (the
flag is set while awaiting and reset in `finally`). `outcome` carries
`analysisOutput[imageId]` after a resolved call: `some` a string response or
`none` when the output is not a string (which throws and is caught like a
rejection). The error path appends exactly the fixed bot message. -/
def sendMessageRun_reason (chatHistory : List Message) (newMessage : String)
    (outcome : RemoteOutcome (Option String)) : List Message × Bool :=
  let text := jsTrim newMessage
  if text = "" then (chatHistory, false)
  else
    let appended := chatHistory ++ [⟨text, Sender.user⟩]
    match outcome with
    | .ok (some botResponse) =>
        (appended ++ [⟨botResponse, Sender.bot⟩], false)
    | .ok none =>
        (appended ++ [⟨"Sorry, an error occurred. Please try again.",
          Sender.bot⟩], false)
    | .error =>
        (appended ++ [⟨"Sorry, an error occurred. Please try again.",
          Sender.bot⟩], false)

/-! ### Generation panels (MAISIModule.vue, NVGenerateCTModule.vue,
unnamed part_000) -/

/-- UI-bound state of `MAISIModule.vue` (and its earlier copy, unnamed
part_000): anatomy selection, resolutions, and the two spacing sliders.
Spacings are rational mm values. -/
structure MAISIState where
  selectedRegion : String
  selectedPart : String
  selectedResolutionXY : Nat
  selectedResolutionZ : Nat
  coronalSagittalSpacing : ℚ
  axialSpacing : ℚ
  deriving Repr, DecidableEq

/-- Initial MAISI panel state (`ref` initializers; the `immediate` watch run
sees 256 ≠ 512 and changes nothing). -/
def maisiInit : MAISIState :=
  { selectedRegion := "abdomen"
    selectedPart := "liver"
    selectedResolutionXY := 256
    selectedResolutionZ := 128
    coronalSagittalSpacing := 3/2
    axialSpacing := 3/2 }

/-- `anatomyData[region][0]`, used by the region watch to reset the part. -/
def firstAnatomyPart (region : String) : String :=
  if region = "abdomen" then "liver"
  else if region = "chest" then "aorta"
  else ""

/-- User interactions on the MAISI panel that the template allows. -/
inductive MAISIAction where
  | setRegion (r : String)
  | setPart (p : String)
  | setResolutionXY (v : Nat)
  | setResolutionZ (v : Nat)
  | setCoronalSagittalSpacing (v : ℚ)
  | setAxialSpacing (v : ℚ)

/-- One MAISI panel state transition. Setting the XY resolution triggers the
watch (`if (newVal === 512) { spacing := 1 }`); the two spacing sliders are
rendered with `:disabled="areSpacingsLocked ..."` where
`areSpacingsLocked = (selectedResolutionXY === 512)`, so a spacing action is a
no-op while locked. Region changes reset the selected part via the region
watch. -/
def maisiStep (s : MAISIState) : MAISIAction → MAISIState
  | .setRegion r =>
      { s with selectedRegion := r, selectedPart := firstAnatomyPart r }
  | .setPart p => { s with selectedPart := p }
  | .setResolutionXY v =>
      if v = 512 then
        { s with selectedResolutionXY := v
                 coronalSagittalSpacing := 1
                 axialSpacing := 1 }
      else { s with selectedResolutionXY := v }
  | .setResolutionZ v => { s with selectedResolutionZ := v }
  | .setCoronalSagittalSpacing v =>
      if s.selectedResolutionXY = 512 then s
      else { s with coronalSagittalSpacing := v }
  | .setAxialSpacing v =>
      if s.selectedResolutionXY = 512 then s
      else { s with axialSpacing := v }

/-- Run a sequence of MAISI panel interactions from a state. -/
def maisiRun (s : MAISIState) (acts : List MAISIAction) : MAISIState :=
  acts.foldl maisiStep s

/-- The `params` object built by `doGenerateWithMAISI`
(`MAISIModule.vue` lines 96–100): anatomy list, output size, spacing. -/
structure MAISIParams where
  anatomy_list : List String
  output_size : List Nat
  spacing : List ℚ
  deriving Repr, DecidableEq

/-- `doGenerateWithMAISI` parameter construction from the current UI state. -/
def maisiParams (s : MAISIState) : MAISIParams :=
  { anatomy_list := [s.selectedPart]
    output_size := [s.selectedResolutionXY, s.selectedResolutionXY,
      s.selectedResolutionZ]
    spacing := [s.coronalSagittalSpacing, s.coronalSagittalSpacing,
      s.axialSpacing] }

/-- UI-bound state of `NVGenerateCTModule.vue`: resolution and spacing
dropdowns. There is no spacing lock in this panel. -/
structure NVGenState where
  selectedResolutionXY : Nat
  selectedResolutionZ : Nat
  selectedSpacingXY : ℚ
  selectedSpacingZ : ℚ
  deriving Repr, DecidableEq

/-- Initial NV-Generate-CT panel state (`ref(512)`, `ref(512)`, `ref(1.0)`,
`ref(1.0)`). -/
def nvGenInit : NVGenState :=
  { selectedResolutionXY := 512
    selectedResolutionZ := 512
    selectedSpacingXY := 1
    selectedSpacingZ := 1 }

/-- User interactions on the NV-Generate-CT panel; none of the controls is
disabled outside of loading, and no watch adjusts the spacing. -/
inductive NVGenAction where
  | setResolutionXY (v : Nat)
  | setResolutionZ (v : Nat)
  | setSpacingXY (v : ℚ)
  | setSpacingZ (v : ℚ)

/-- One NV-Generate-CT panel state transition. -/
def nvGenStep (s : NVGenState) : NVGenAction → NVGenState
  | .setResolutionXY v => { s with selectedResolutionXY := v }
  | .setResolutionZ v => { s with selectedResolutionZ := v }
  | .setSpacingXY v => { s with selectedSpacingXY := v }
  | .setSpacingZ v => { s with selectedSpacingZ := v }

/-- Run a sequence of NV-Generate-CT panel interactions from a state. -/
def nvGenRun (s : NVGenState) (acts : List NVGenAction) : NVGenState :=
  acts.foldl nvGenStep s

/-- The `params` object built by `doGenerateWithNVGenerateCT`
(`NVGenerateCTModule.vue` lines 42–45): output size and spacing taken
directly from the dropdown state. -/
structure NVGenParams where
  output_size : List Nat
  spacing : List ℚ
  deriving Repr, DecidableEq

/-- `doGenerateWithNVGenerateCT` parameter construction. -/
def nvGenParams (s : NVGenState) : NVGenParams :=
  { output_size := [s.selectedResolutionXY, s.selectedResolutionXY,
      s.selectedResolutionZ]
    spacing := [s.selectedSpacingXY, s.selectedSpacingXY,
      s.selectedSpacingZ] }

/-! ### Panel cache consumption (the retrieve/consume/evict step) -/

/-- Cache effect of the success path of `doGenerateWithMAISI`
(`MAISIModule.vue` lines 102–117): read the result by the generation id;
on a miss, log and return leaving the cache alone; on a hit, load the image
and `removeNVGenerateResult(generationId)`. Returns the cache afterwards and
the consumed payload, if any. -/
def doGenerateWithMAISI_cacheStep {α : Type} (c : Cache α)
    (generationId : String) : Cache α × Option α :=
  match getNVGenerateResult c (some generationId) with
  | none => (c, none)
  | some obj => (removeNVGenerateResult c generationId, some obj)

/-- Cache effect of `doGenerateWithNVGenerateCT` (`NVGenerateCTModule.vue`
lines 47–64): identical retrieve-then-remove shape. -/
def doGenerateWithNVGenerateCT_cacheStep {α : Type} (c : Cache α)
    (generationId : String) : Cache α × Option α :=
  match getNVGenerateResult c (some generationId) with
  | none => (c, none)
  | some obj => (removeNVGenerateResult c generationId, some obj)

/-- Cache effect of `doSegmentation` in `NVSegmentModule.vue` (lines
417–473): the labelmap is read with `getNVSegmentResult(baseImageId)` and
consumed, but no `removeNVSegmentResult` call exists anywhere in the flow, so
the cache is returned unchanged even on success. -/
def doSegmentation_cacheStep {α : Type} (c : Cache α)
    (baseImageId : String) : Cache α × Option α :=
  match getNVSegmentResult c (some baseImageId) with
  | none => (c, none)
  | some obj => (c, some obj)

/-- Cache effect of `doSegmentWithNVSegmentCT` (unnamed part_002, lines
192–212): same retrieve-without-remove shape. -/
def doSegmentWithNVSegmentCT_cacheStep {α : Type} (c : Cache α)
    (baseImageId : String) : Cache α × Option α :=
  match getNVSegmentResult c (some baseImageId) with
  | none => (c, none)
  | some obj => (c, some obj)

/-- Observable outcome of one full `doGenerateWithMAISI` invocation: the
loading flag after the `finally`, the user-visible alerts the run emitted,
and the cache afterwards. The catch branch only calls `console.error`; no
alert is shown anywhere in the flow (the template's only `v-alert`s are the
static not-connected and spacing notes). -/
def doGenerateWithMAISI_run {α : Type} (c : Cache α) (generationId : String)
    (callOutcome : RemoteOutcome Unit) : Bool × List String × Cache α :=
  match callOutcome with
  | .error => (false, [], c)
  | .ok _ =>
      match getNVGenerateResult c (some generationId) with
      | none => (false, [], c)
      | some _ => (false, [], removeNVGenerateResult c generationId)

/-- Observable outcome of one full `doSegmentation` invocation in
`NVSegmentModule.vue`: loading flag after `finally`, user-visible alerts
(none are produced on any path; errors go to `console.error`), and the cache
afterwards. -/
def doSegmentation_run {α : Type} (c : Cache α) (baseImageId : String)
    (callOutcome : RemoteOutcome Unit) : Bool × List String × Cache α :=
  match callOutcome with
  | .error => (false, [], c)
  | .ok _ => (false, [], c)

/-! ### Segment group naming (NVSegmentModule.vue, lines 367–389) -/

/-- Little-endian decimal digits of a natural number. -/
def toDigitsLE (n : Nat) : List Nat :=
  if h : n < 10 then [n]
  else (n % 10) :: toDigitsLE (n / 10)
  decreasing_by
    exact Nat.div_lt_self (by omega) (by omega)

/-- Recompose a little-endian digit list. -/
def fromDigitsLE (l : List Nat) : Nat :=
  l.foldr (fun d acc => d + 10 * acc) 0

/-- One decimal digit as a character. -/
def digitToChar : Nat → Char
  | 0 => '0'
  | 1 => '1'
  | 2 => '2'
  | 3 => '3'
  | 4 => '4'
  | 5 => '5'
  | 6 => '6'
  | 7 => '7'
  | 8 => '8'
  | 9 => '9'
  | _ => '*'

/-- Decimal string of a natural number, modelling the JS template-literal
conversion `${index}` (ECMAScript renders an integral Number as its decimal
digit string). -/
def natToString (n : Nat) : String :=
  ⟨((toDigitsLE n).reverse).map digitToChar⟩

/-- Metadata of one segment group, as read from
`segmentGroupStore.metadataByID`: its display name and parent image id. -/
structure SegmentGroupMetadata where
  name : String
  parentImage : String
  deriving Repr, DecidableEq

/-- The candidate name the loop tries at a given index: the bare
`` `${prefix} for ${baseName}` `` at index 1, and
`` `${prefix} for ${baseName} (${index})` `` afterwards. -/
def candidateName (pre baseName : String) (i : Nat) : String :=
  if i = 1 then pre ++ " for " ++ baseName
  else pre ++ " for " ++ baseName ++ " (" ++ natToString i ++ ")"

/-- The `while (existingNames.has(name))` loop of
`pickUniqueSegmentGroupName`, fuel-translated. Each iteration increments the
index and rebuilds the suffixed name. Because the candidates are pairwise
distinct strings (proved below), `existingNames.length + 1` iterations always
suffice, so the translation computes the same name as the unbounded JS
loop. -/
def pickNameLoop (existingNames : List String) (pre baseName : String) :
    Nat → String → Nat → String
  | _, name, 0 => name
  | index, name, fuel + 1 =>
      if name ∈ existingNames then
        pickNameLoop existingNames pre baseName (index + 1)
          (pre ++ " for " ++ baseName ++ " (" ++ natToString (index + 1)
            ++ ")") fuel
      else name

/-- `pickUniqueSegmentGroupName` from `NVSegmentModule.vue`: collect the
names of sibling groups (same `parentImage`), start from
`` `${prefix} for ${baseName}` `` at index 1, and append `(index)` with an
incremented index while the name is taken. -/
def pickUniqueSegmentGroupName (metadataValues : List SegmentGroupMetadata)
    (baseName parentID pre : String) : String :=
  let existingNames :=
    (metadataValues.filter (fun m => m.parentImage == parentID)).map
      (fun m => m.name)
  pickNameLoop existingNames pre baseName 1 (pre ++ " for " ++ baseName)
    (existingNames.length + 1)

/-! ### Record and list lemmas -/

theorem hasKey_iff {α : Type} (m : List (String × α)) (id : String) :
    hasKey m id = true ↔ ∃ e ∈ m, e.1 = id := by
  simp [hasKey, List.any_eq_true]

theorem hasKey_mapOverwrite {α : Type} (m : List (String × α))
    (id id' : String) (v : α) :
    hasKey (m.map (fun e => if e.1 == id then (id, v) else e)) id'
      = hasKey m id' := by
  induction m with
  | nil => rfl
  | cons e es ih =>
    simp only [List.map_cons, hasKey, List.any_cons] at *
    by_cases h : e.1 == id
    · rw [if_pos h]
      rw [beq_iff_eq] at h
      subst h
      rw [ih]
    · rw [if_neg h]
      rw [ih]

theorem hasKey_recordSet_iff {α : Type} (m : List (String × α))
    (id id' : String) (v : α) :
    hasKey (recordSet m id v) id' = true ↔
      (hasKey m id' = true ∨ id' = id) := by
  unfold recordSet
  by_cases h : hasKey m id
  · rw [if_pos h, hasKey_mapOverwrite]
    constructor
    · exact fun hk => Or.inl hk
    · rintro (hk | rfl)
      · exact hk
      · exact h
  · rw [if_neg h]
    simp only [hasKey, List.any_append, List.any_cons, List.any_nil,
      Bool.or_false, Bool.or_eq_true, beq_iff_eq]
    exact or_congr Iff.rfl eq_comm

theorem hasKey_recordDelete_iff {α : Type} (m : List (String × α))
    (id id' : String) :
    hasKey (recordDelete m id) id' = true ↔
      (hasKey m id' = true ∧ id' ≠ id) := by
  simp only [recordDelete, hasKey_iff, List.mem_filter]
  constructor
  · rintro ⟨e, ⟨hm, hne⟩, rfl⟩
    refine ⟨⟨e, hm, rfl⟩, ?_⟩
    simpa using hne
  · rintro ⟨⟨e, hm, rfl⟩, hne⟩
    exact ⟨e, ⟨hm, by simpa using hne⟩, rfl⟩

theorem find?_eq_none_of_not_hasKey {α : Type} (m : List (String × α))
    (id : String) (h : hasKey m id = false) :
    m.find? (fun e => e.1 == id) = none := by
  rw [List.find?_eq_none]
  intro e he hb
  have hk : hasKey m id = true :=
    (hasKey_iff m id).mpr ⟨e, he, by simpa using hb⟩
  rw [h] at hk
  exact Bool.false_ne_true hk

theorem recordGet?_eq_none_of_not_hasKey {α : Type} (m : List (String × α))
    (id : String) (h : hasKey m id = false) : recordGet? m id = none := by
  unfold recordGet?
  rw [find?_eq_none_of_not_hasKey m id h]
  rfl

theorem find?_mapOverwrite_of_hasKey {α : Type} (m : List (String × α))
    (id : String) (v : α) (h : hasKey m id = true) :
    (m.map (fun e => if e.1 == id then (id, v) else e)).find?
      (fun e => e.1 == id) = some (id, v) := by
  induction m with
  | nil => simp [hasKey] at h
  | cons e es ih =>
    by_cases he : e.1 == id
    · rw [List.map_cons, if_pos he]
      exact List.find?_cons_of_pos _ (by simp)
    · rw [List.map_cons, if_neg he,
        List.find?_cons_of_neg (p := fun x : String × α => x.1 == id) _ he]
      apply ih
      simpa [hasKey, he] using h

theorem find?_append_of_none {α : Type} (p : String × α → Bool)
    (l₁ l₂ : List (String × α)) (h : l₁.find? p = none) :
    (l₁ ++ l₂).find? p = l₂.find? p := by
  induction l₁ with
  | nil => rfl
  | cons a l ih =>
    by_cases hp : p a
    · rw [List.find?_cons_of_pos _ hp] at h
      exact absurd h (by simp)
    · rw [List.find?_cons_of_neg _ hp] at h
      rw [List.cons_append, List.find?_cons_of_neg _ hp]
      exact ih h

theorem recordGet?_recordSet_self {α : Type} (m : List (String × α))
    (id : String) (v : α) : recordGet? (recordSet m id v) id = some v := by
  unfold recordSet
  by_cases h : hasKey m id
  · rw [if_pos h]
    unfold recordGet?
    rw [find?_mapOverwrite_of_hasKey m id v h]
    rfl
  · rw [if_neg h]
    unfold recordGet?
    have hf : hasKey m id = false := by
      cases hx : hasKey m id
      · rfl
      · exact absurd hx h
    rw [find?_append_of_none _ _ _ (find?_eq_none_of_not_hasKey m id hf)]
    simp [List.find?_cons_of_pos]

theorem recordGet?_recordDelete_self {α : Type} (m : List (String × α))
    (id : String) : recordGet? (recordDelete m id) id = none := by
  apply recordGet?_eq_none_of_not_hasKey
  cases hx : hasKey (recordDelete m id) id
  · rfl
  · exact absurd rfl ((hasKey_recordDelete_iff m id id).mp hx).2

theorem spliceFirst_sublist (l : List String) (id : String) :
    (spliceFirst l id).Sublist l := by
  induction l with
  | nil => simp [spliceFirst]
  | cons x xs ih =>
    unfold spliceFirst
    by_cases h : x == id
    · rw [if_pos h]
      exact List.sublist_cons_self x xs
    · rw [if_neg h]
      exact ih.cons₂ x

theorem mem_spliceFirst_iff (l : List String) (id x : String)
    (hnd : l.Nodup) : x ∈ spliceFirst l id ↔ (x ∈ l ∧ x ≠ id) := by
  induction l with
  | nil => simp [spliceFirst]
  | cons y ys ih =>
    rw [List.nodup_cons] at hnd
    unfold spliceFirst
    by_cases h : y == id
    · rw [if_pos h]
      rw [beq_iff_eq] at h
      subst h
      constructor
      · intro hx
        refine ⟨List.mem_cons_of_mem _ hx, ?_⟩
        rintro rfl
        exact hnd.1 hx
      · rintro ⟨hx, hne⟩
        rcases List.mem_cons.mp hx with rfl | hx
        · exact absurd rfl hne
        · exact hx
    · rw [if_neg h]
      rw [beq_iff_eq] at h
      simp only [List.mem_cons, ih hnd.2]
      constructor
      · rintro (rfl | ⟨hx, hne⟩)
        · exact ⟨Or.inl rfl, h⟩
        · exact ⟨Or.inr hx, hne⟩
      · rintro ⟨rfl | hx, hne⟩
        · exact Or.inl rfl
        · exact Or.inr ⟨hx, hne⟩

/-! ### Characterizations of the cache operations -/

theorem setResult_ids_of_hasKey {α : Type} {c : Cache α} {id : String}
    (v : α) (hk : hasKey c.resultsById id = true) :
    (setResult c id v).ids = c.ids := by
  unfold setResult
  rw [if_pos hk]

theorem setResult_ids_of_not_hasKey {α : Type} {c : Cache α} {id : String}
    (v : α) (hk : hasKey c.resultsById id = false) :
    (setResult c id v).ids = c.ids ++ [id] := by
  unfold setResult
  rw [if_neg (by rw [hk]; exact Bool.false_ne_true)]

theorem setResult_resultsById {α : Type} (c : Cache α) (id : String) (v : α) :
    (setResult c id v).resultsById = recordSet c.resultsById id v := rfl

theorem removeResult_of_hasKey {α : Type} {c : Cache α} {id : String}
    (hk : hasKey c.resultsById id = true) :
    removeResult c id =
      ⟨spliceFirst c.ids id, recordDelete c.resultsById id⟩ := by
  unfold removeResult
  rw [if_pos hk]

theorem removeResult_of_not_hasKey {α : Type} {c : Cache α} {id : String}
    (hk : hasKey c.resultsById id = false) : removeResult c id = c := by
  unfold removeResult
  rw [if_neg (by rw [hk]; exact Bool.false_ne_true)]

theorem getResult_some {α : Type} (c : Cache α) (id : String) (h : ¬ id = "") :
    getResult c (some id) = recordGet? c.resultsById id := by
  have hstep : getResult c (some id)
      = if (id == "") = true then none else recordGet? c.resultsById id := rfl
  rw [hstep, if_neg (by simpa using h)]

/-! ### Invariant preservation -/

theorem cacheInv_empty (α : Type) : CacheInv (emptyCache α) := by
  constructor
  · intro id
    simp [emptyCache, hasKey]
  · simp [emptyCache]

theorem cacheInv_setResult {α : Type} {c : Cache α} (id : String) (v : α)
    (h : CacheInv c) : CacheInv (setResult c id v) := by
  obtain ⟨hmem, hnd⟩ := h
  by_cases hk : hasKey c.resultsById id
  · refine ⟨?_, ?_⟩
    · intro id'
      rw [setResult_ids_of_hasKey v hk, setResult_resultsById]
      constructor
      · intro hin
        exact (hasKey_recordSet_iff _ _ _ _).mpr (Or.inl ((hmem id').mp hin))
      · intro hin
        rcases (hasKey_recordSet_iff _ _ _ _).mp hin with hh | rfl
        · exact (hmem id').mpr hh
        · exact (hmem id').mpr hk
    · rw [setResult_ids_of_hasKey v hk]
      exact hnd
  · have hkf : hasKey c.resultsById id = false := by
      cases hx : hasKey c.resultsById id
      · rfl
      · exact absurd hx hk
    have hidnot : id ∉ c.ids := fun hin => hk ((hmem id).mp hin)
    refine ⟨?_, ?_⟩
    · intro id'
      rw [setResult_ids_of_not_hasKey v hkf, setResult_resultsById]
      rw [List.mem_append, List.mem_singleton, hmem id']
      exact (hasKey_recordSet_iff _ _ _ _).symm
    · rw [setResult_ids_of_not_hasKey v hkf]
      exact hnd.append (List.nodup_singleton id)
        (List.disjoint_singleton.mpr hidnot)

theorem cacheInv_removeResult {α : Type} {c : Cache α} (id : String)
    (h : CacheInv c) : CacheInv (removeResult c id) := by
  obtain ⟨hmem, hnd⟩ := h
  by_cases hk : hasKey c.resultsById id
  · rw [removeResult_of_hasKey hk]
    refine ⟨?_, ?_⟩
    · intro id'
      rw [show (Cache.mk (α := α) (spliceFirst c.ids id)
        (recordDelete c.resultsById id)).ids = spliceFirst c.ids id from rfl]
      rw [mem_spliceFirst_iff c.ids id id' hnd, hmem id']
      exact (hasKey_recordDelete_iff _ _ _).symm
    · exact (spliceFirst_sublist c.ids id).nodup hnd
  · have hkf : hasKey c.resultsById id = false := by
      cases hx : hasKey c.resultsById id
      · rfl
      · exact absurd hx hk
    rw [removeResult_of_not_hasKey hkf]
    exact ⟨hmem, hnd⟩

theorem cacheInv_applyOp {α : Type} {c : Cache α} (op : CacheOp α)
    (h : CacheInv c) : CacheInv (applyOp c op) := by
  cases op with
  | set id v => exact cacheInv_setResult id v h
  | get _ => exact h
  | remove id => exact cacheInv_removeResult id h

theorem cacheInv_runOps {α : Type} (ops : List (CacheOp α)) :
    ∀ (c : Cache α), CacheInv c → CacheInv (runOps c ops) := by
  induction ops with
  | nil => exact fun c h => h
  | cons op rest ih =>
    intro c h
    exact ih (applyOp c op) (cacheInv_applyOp op h)

/-! ### Vista3d store: every stored value is a Blob -/

theorem isBlob_toStoredBlob (b : BinData) : isBlob (toStoredBlob b) = true := by
  cases b <;> rfl

theorem allBlobs_setVista3dResult {c : Cache BinData} (id : String)
    (v : BinData) (h : AllBlobs c) : AllBlobs (setVista3dResult c id v) := by
  intro e he
  rw [show (setVista3dResult c id v).resultsById
    = recordSet c.resultsById id (toStoredBlob v) from rfl] at he
  unfold recordSet at he
  by_cases hk : hasKey c.resultsById id
  · rw [if_pos hk] at he
    rcases List.mem_map.mp he with ⟨e', he', rfl⟩
    by_cases hb : e'.1 == id
    · rw [if_pos hb]
      exact isBlob_toStoredBlob v
    · rw [if_neg hb]
      exact h e' he'
  · rw [if_neg hk] at he
    rcases List.mem_append.mp he with hin | hin
    · exact h e hin
    · rw [List.mem_singleton.mp hin]
      exact isBlob_toStoredBlob v

theorem allBlobs_removeVista3dResult {c : Cache BinData} (id : String)
    (h : AllBlobs c) : AllBlobs (removeVista3dResult c id) := by
  intro e he
  unfold removeVista3dResult removeResult at he
  by_cases hk : hasKey c.resultsById id
  · rw [if_pos hk] at he
    exact h e (List.mem_of_mem_filter he)
  · rw [if_neg hk] at he
    exact h e he

theorem allBlobs_runVista3dOps (ops : List Vista3dOp) :
    ∀ (c : Cache BinData), AllBlobs c → AllBlobs (runVista3dOps c ops) := by
  induction ops with
  | nil => exact fun c h => h
  | cons op rest ih =>
    intro c h
    refine ih (applyVista3dOp c op) ?_
    cases op with
    | set id v => exact allBlobs_setVista3dResult id v h
    | remove id => exact allBlobs_removeVista3dResult id h

theorem getResult_mem {α : Type} (c : Cache α) (id : String) (v : α)
    (h : getResult c (some id) = some v) : ∃ e ∈ c.resultsById, e.2 = v := by
  by_cases hid : id = ""
  · subst hid
    exact absurd h (by simp [getResult])
  · rw [getResult_some c id hid] at h
    unfold recordGet? at h
    rcases Option.map_eq_some'.mp h with ⟨e, he, rfl⟩
    exact ⟨e, List.mem_of_find?_eq_some he, rfl⟩

/-! ### Decimal strings and name-candidate distinctness -/

theorem fromDigitsLE_toDigitsLE (n : Nat) :
    fromDigitsLE (toDigitsLE n) = n := by
  induction n using Nat.strong_induction_on with
  | _ n ih =>
    rw [toDigitsLE]
    by_cases h : n < 10
    · rw [dif_pos h]
      simp [fromDigitsLE]
    · rw [dif_neg h]
      have hlt : n / 10 < n := Nat.div_lt_self (by omega) (by omega)
      have hrec := ih (n / 10) hlt
      simp only [fromDigitsLE, List.foldr_cons] at *
      rw [hrec]
      omega

theorem toDigitsLE_injective {m n : Nat}
    (h : toDigitsLE m = toDigitsLE n) : m = n := by
  have := congrArg fromDigitsLE h
  rwa [fromDigitsLE_toDigitsLE, fromDigitsLE_toDigitsLE] at this

theorem toDigitsLE_lt (n : Nat) : ∀ d ∈ toDigitsLE n, d < 10 := by
  induction n using Nat.strong_induction_on with
  | _ n ih =>
    rw [toDigitsLE]
    by_cases h : n < 10
    · rw [dif_pos h]
      intro d hd
      rw [List.mem_singleton.mp hd]
      exact h
    · rw [dif_neg h]
      intro d hd
      rcases List.mem_cons.mp hd with rfl | hd
      · exact Nat.mod_lt _ (by omega)
      · exact ih (n / 10) (Nat.div_lt_self (by omega) (by omega)) d hd

theorem toDigitsLE_ne_nil (n : Nat) : toDigitsLE n ≠ [] := by
  rw [toDigitsLE]
  by_cases h : n < 10
  · rw [dif_pos h]
    exact List.cons_ne_nil _ _
  · rw [dif_neg h]
    exact List.cons_ne_nil _ _

theorem digitToChar_inj_lt :
    ∀ d, d < 10 → ∀ e, e < 10 → digitToChar d = digitToChar e → d = e := by
  decide

theorem map_digitToChar_inj :
    ∀ (l₁ l₂ : List Nat), (∀ d ∈ l₁, d < 10) → (∀ d ∈ l₂, d < 10) →
      l₁.map digitToChar = l₂.map digitToChar → l₁ = l₂ := by
  intro l₁
  induction l₁ with
  | nil =>
    intro l₂ _ _ h
    cases l₂ with
    | nil => rfl
    | cons d l => exact absurd h.symm (by simp)
  | cons d l ih =>
    intro l₂ h₁ h₂ h
    cases l₂ with
    | nil => exact absurd h (by simp)
    | cons e l' =>
      simp only [List.map_cons, List.cons.injEq] at h
      have hd : d = e :=
        digitToChar_inj_lt d (h₁ d (List.mem_cons_self d l)) e
          (h₂ e (List.mem_cons_self e l')) h.1
      have hl : l = l' :=
        ih l' (fun x hx => h₁ x (List.mem_cons_of_mem d hx))
          (fun x hx => h₂ x (List.mem_cons_of_mem e hx)) h.2
      rw [hd, hl]

theorem natToString_injective {m n : Nat}
    (h : natToString m = natToString n) : m = n := by
  have hdata := congrArg String.data h
  simp only [natToString] at hdata
  have hrev : (toDigitsLE m).reverse = (toDigitsLE n).reverse :=
    map_digitToChar_inj _ _
      (fun d hd => toDigitsLE_lt m d (List.mem_reverse.mp hd))
      (fun d hd => toDigitsLE_lt n d (List.mem_reverse.mp hd)) hdata
  exact toDigitsLE_injective (List.reverse_injective hrev)

theorem natToString_length_pos (n : Nat) : 0 < (natToString n).length := by
  show 0 < (((toDigitsLE n).reverse).map digitToChar).length
  rw [List.length_map, List.length_reverse]
  cases hd : toDigitsLE n with
  | nil => exact absurd hd (toDigitsLE_ne_nil n)
  | cons a l => simp

theorem string_data_append (a b : String) : (a ++ b).data = a.data ++ b.data :=
  rfl

theorem string_data_injective {a b : String} (h : a.data = b.data) : a = b := by
  cases a
  cases b
  exact congrArg String.mk h

theorem string_length_append (a b : String) :
    (a ++ b).length = a.length + b.length := by
  show (a ++ b).data.length = a.data.length + b.data.length
  rw [string_data_append, List.length_append]

theorem candidateName_one (pre b : String) :
    candidateName pre b 1 = pre ++ " for " ++ b := by
  rw [candidateName, if_pos rfl]

theorem candidateName_of_ge_two (pre b : String) (i : Nat) (h : 2 ≤ i) :
    candidateName pre b i
      = pre ++ " for " ++ b ++ " (" ++ natToString i ++ ")" := by
  rw [candidateName, if_neg (by omega)]

theorem candidateName_length_of_ge_two (pre b : String) (i : Nat)
    (h : 2 ≤ i) :
    (candidateName pre b i).length
      = (pre ++ " for " ++ b).length + 2 + (natToString i).length + 1 := by
  rw [candidateName_of_ge_two pre b i h]
  rw [string_length_append, string_length_append, string_length_append]
  rfl

theorem candidateName_injOn (pre b : String) :
    ∀ i j, 1 ≤ i → 1 ≤ j → candidateName pre b i = candidateName pre b j →
      i = j := by
  intro i j hi hj h
  rcases Nat.lt_or_ge i 2 with hi2 | hi2 <;>
    rcases Nat.lt_or_ge j 2 with hj2 | hj2
  · omega
  · exfalso
    have hlen := congrArg String.length h
    have hone : i = 1 := by omega
    rw [hone, candidateName_one, candidateName_length_of_ge_two pre b j hj2]
      at hlen
    have := natToString_length_pos j
    omega
  · exfalso
    have hlen := congrArg String.length h
    have hone : j = 1 := by omega
    rw [hone, candidateName_one, candidateName_length_of_ge_two pre b i hi2]
      at hlen
    have := natToString_length_pos i
    omega
  · rw [candidateName_of_ge_two pre b i hi2,
      candidateName_of_ge_two pre b j hj2] at h
    have hdata : ((pre ++ " for " ++ b ++ " (").data
          ++ (natToString i).data) ++ [')']
        = ((pre ++ " for " ++ b ++ " (").data
          ++ (natToString j).data) ++ [')'] := congrArg String.data h
    have h1 := List.append_cancel_right hdata
    have h2 := List.append_cancel_left h1
    exact natToString_injective (string_data_injective h2)

/-! ### Correctness of the name-picking loop -/

theorem pickNameLoop_mem_spec (existing : List String) (pre b : String) :
    ∀ (fuel idx : Nat), 1 ≤ idx →
      pickNameLoop existing pre b idx (candidateName pre b idx) fuel
        ∈ existing →
      ∀ j, idx ≤ j → j ≤ idx + fuel → candidateName pre b j ∈ existing := by
  intro fuel
  induction fuel with
  | zero =>
    intro idx hidx h j hj1 hj2
    have hj : j = idx := by omega
    subst hj
    simpa [pickNameLoop] using h
  | succ fuel ih =>
    intro idx hidx h j hj1 hj2
    rw [pickNameLoop] at h
    by_cases hm : candidateName pre b idx ∈ existing
    · rw [if_pos hm] at h
      have hc : (pre ++ " for " ++ b ++ " (" ++ natToString (idx + 1)
            ++ ")") = candidateName pre b (idx + 1) :=
        (candidateName_of_ge_two pre b (idx + 1) (by omega)).symm
      rw [hc] at h
      rcases Nat.eq_or_lt_of_le hj1 with rfl | hlt
      · exact hm
      · have hj2' : j ≤ idx + 1 + fuel := by omega
        exact ih (idx + 1) (by omega) h j hlt hj2'
    · rw [if_neg hm] at h
      exact absurd h hm

theorem pickNameLoop_fresh (existing : List String) (pre b : String) :
    pickNameLoop existing pre b 1 (pre ++ " for " ++ b)
      (existing.length + 1) ∉ existing := by
  intro hmem
  rw [show pre ++ " for " ++ b = candidateName pre b 1 from
    (candidateName_one pre b).symm] at hmem
  have hall := pickNameLoop_mem_spec existing pre b (existing.length + 1) 1
    (le_refl 1) hmem
  have hsub : (Finset.Icc 1 (existing.length + 2)).image
      (candidateName pre b) ⊆ existing.toFinset := by
    intro x hx
    rcases Finset.mem_image.mp hx with ⟨j, hj, rfl⟩
    rw [Finset.mem_Icc] at hj
    exact List.mem_toFinset.mpr (hall j hj.1 (by omega))
  have hinj : Set.InjOn (candidateName pre b)
      (Finset.Icc 1 (existing.length + 2)) := by
    intro i hi j hj hij
    exact candidateName_injOn pre b i j
      (Finset.mem_Icc.mp (Finset.mem_coe.mp hi)).1
      (Finset.mem_Icc.mp (Finset.mem_coe.mp hj)).1 hij
  have hcard1 : ((Finset.Icc 1 (existing.length + 2)).image
      (candidateName pre b)).card = existing.length + 2 := by
    rw [Finset.card_image_of_injOn hinj, Nat.card_Icc]
    omega
  have hcard2 := Finset.card_le_card hsub
  have hcard3 : existing.toFinset.card ≤ existing.length :=
    existing.toFinset_card_le
  omega

theorem pickUniqueSegmentGroupName_not_mem
    (metadataValues : List SegmentGroupMetadata)
    (baseName parentID pre : String) :
    pickUniqueSegmentGroupName metadataValues baseName parentID pre ∉
      (metadataValues.filter (fun m => m.parentImage == parentID)).map
        (fun m => m.name) :=
  pickNameLoop_fresh _ pre baseName

/-! ### MAISI spacing lock invariant -/

theorem maisiStep_lock (s : MAISIState) (a : MAISIAction)
    (h : s.selectedResolutionXY = 512 →
      s.coronalSagittalSpacing = 1 ∧ s.axialSpacing = 1) :
    (maisiStep s a).selectedResolutionXY = 512 →
      (maisiStep s a).coronalSagittalSpacing = 1
        ∧ (maisiStep s a).axialSpacing = 1 := by
  cases a with
  | setRegion r => exact h
  | setPart p => exact h
  | setResolutionXY v =>
    intro hres
    by_cases hv : v = 512
    · rw [maisiStep, if_pos hv]
      exact ⟨rfl, rfl⟩
    · rw [maisiStep, if_neg hv] at hres ⊢
      exact absurd hres hv
  | setResolutionZ v => exact h
  | setCoronalSagittalSpacing v =>
    intro hres
    by_cases hr : s.selectedResolutionXY = 512
    · rw [maisiStep, if_pos hr] at hres ⊢
      exact h hres
    · rw [maisiStep, if_neg hr] at hres ⊢
      exact absurd hres hr
  | setAxialSpacing v =>
    intro hres
    by_cases hr : s.selectedResolutionXY = 512
    · rw [maisiStep, if_pos hr] at hres ⊢
      exact h hres
    · rw [maisiStep, if_neg hr] at hres ⊢
      exact absurd hres hr

theorem maisiRun_lock (acts : List MAISIAction) :
    ∀ (s : MAISIState),
      (s.selectedResolutionXY = 512 →
        s.coronalSagittalSpacing = 1 ∧ s.axialSpacing = 1) →
      (maisiRun s acts).selectedResolutionXY = 512 →
        (maisiRun s acts).coronalSagittalSpacing = 1
          ∧ (maisiRun s acts).axialSpacing = 1 := by
  induction acts with
  | nil => exact fun s h => h
  | cons a rest ih =>
    intro s h
    exact ih (maisiStep s a) (maisiStep_lock s a h)

/-! ### Shared get/set/remove composition lemmas -/

theorem getResult_setResult {α : Type} (c : Cache α) (id : String) (v : α)
    (h : ¬ id = "") : getResult (setResult c id v) (some id) = some v := by
  rw [getResult_some _ id h, setResult_resultsById,
    recordGet?_recordSet_self]

theorem getResult_removeResult_self {α : Type} (c : Cache α) (id : String) :
    getResult (removeResult c id) (some id) = none := by
  by_cases hid : id = ""
  · subst hid
    simp [getResult]
  · rw [getResult_some _ id hid]
    by_cases hk : hasKey c.resultsById id
    · rw [removeResult_of_hasKey hk]
      exact recordGet?_recordDelete_self c.resultsById id
    · have hkf : hasKey c.resultsById id = false := by
        cases hx : hasKey c.resultsById id
        · rfl
        · exact absurd hx hk
      rw [removeResult_of_not_hasKey hkf]
      exact recordGet?_eq_none_of_not_hasKey c.resultsById id hkf

/-! ## The claims -/

/-- C1, as stated, fails on the code at two points: (a) after `set("", p)` the
getter `get("")` hits the JS falsiness guard `if (!id) return null` and
returns the not-found sentinel instead of `p` (nv-generate store shown);
(b) in the vista3d store, `set(id, payload)` with a raw `ArrayBuffer` payload
stores `new Blob([payload])`, so `get(id)` returns a wrapping Blob, not that
same payload. -/
theorem claim_C1_counterexample :
    getNVGenerateResult (setNVGenerateResult (emptyCache Nat) "" 0)
        (some "") = none
    ∧ getVista3dResult
        (setVista3dResult (emptyCache BinData) "img" (BinData.arrayBuffer [1]))
        (some "img") ≠ some (BinData.arrayBuffer [1]) := by
  exact ⟨by decide, by decide⟩

/-- C1 (amended): for every NON-EMPTY identifier `id`, `get(id)` immediately
after `set(id, payload)` returns the stored payload in each of the three
caches; for the nv-generate and nv-segment caches the stored payload is the
argument itself, and for the vista3d cache it is the Blob normalization of
the argument (the argument itself whenever it is already a Blob). -/
theorem claim_C1_roundtrip_amended {α : Type} (c : Cache α)
    (cv : Cache BinData) (id : String) (v : α) (b : BinData)
    (h : ¬ id = "") :
    getNVGenerateResult (setNVGenerateResult c id v) (some id) = some v
    ∧ getNVSegmentResult (setNVSegmentResult c id v) (some id) = some v
    ∧ getVista3dResult (setVista3dResult cv id b) (some id)
        = some (toStoredBlob b) :=
  ⟨getResult_setResult c id v h, getResult_setResult c id v h,
    getResult_setResult cv id (toStoredBlob b) h⟩

theorem claim_C1_roundtrip_amended_witness :
    (¬ "a" = "")
    ∧ getNVGenerateResult (setNVGenerateResult (emptyCache Nat) "a" 7)
        (some "a") = some 7 :=
  ⟨by decide, (claim_C1_roundtrip_amended (emptyCache Nat)
    (emptyCache BinData) "a" 7 (BinData.blob []) (by decide)).1⟩

/-- C2: the claim is the documented intent (the part_004 panel maps the
history BEFORE appending, with an explicit IMPORTANT comment about avoiding
duplication), but the part_006 chat panel calls `appendMessage(text, 'user')`
first and only then maps `currentMessages`, so the history it sends DOES
contain the just-typed message. Evaluated at the failing input (empty prior
log, message "hello"): part_004 sends an empty history while part_006 sends
a history already holding the "hello" user turn, duplicating the prompt. -/
theorem claim_C2_history_duplication :
    (sendMessagePayload_reason [] "hello").1
        = some ⟨"hello", []⟩
    ∧ (sendMessagePayload_assistant [] "hello").1
        = some ⟨"hello", [⟨"user", "hello"⟩]⟩ := by
  exact ⟨by decide, by decide⟩

/-- C3, as stated for "every generation panel", fails on
`NVGenerateCTModule.vue`: that panel has no spacing lock (no watch, and the
spacing dropdowns stay enabled), so with the default XY resolution 512 and
user-selected spacings 2mm/3mm the payload spacing is `[2, 2, 3]`, not the
locked `[1, 1, 1]`. -/
theorem claim_C3_counterexample :
    (nvGenRun nvGenInit [NVGenAction.setSpacingXY 2,
        NVGenAction.setSpacingZ 3]).selectedResolutionXY = 512
    ∧ (nvGenParams (nvGenRun nvGenInit [NVGenAction.setSpacingXY 2,
        NVGenAction.setSpacingZ 3])).spacing ≠ [(1 : ℚ), 1, 1]
    ∧ (nvGenParams (nvGenRun nvGenInit [NVGenAction.setSpacingXY 2,
        NVGenAction.setSpacingZ 3])).spacing = [(2 : ℚ), 2, 3] := by
  exact ⟨by decide, by decide, by decide⟩

/-- C3 (amended): on the MAISI generation panels (`MAISIModule.vue` and its
unnamed part_000 copy), whenever the state reachable through the UI has XY
resolution 512, the `spacing` of the parameter payload built by
`doGenerateWithMAISI` is the locked `[1, 1, 1]`, regardless of previously
selected slider values; the NV-Generate-CT panel sends the selected spacing
unchanged. -/
theorem claim_C3_spacing_lock_amended (acts : List MAISIAction)
    (h : (maisiRun maisiInit acts).selectedResolutionXY = 512) :
    (maisiParams (maisiRun maisiInit acts)).spacing = [1, 1, 1] := by
  have hl := maisiRun_lock acts maisiInit
    (fun h512 => absurd h512 (by decide)) h
  show [(maisiRun maisiInit acts).coronalSagittalSpacing,
    (maisiRun maisiInit acts).coronalSagittalSpacing,
    (maisiRun maisiInit acts).axialSpacing] = [1, 1, 1]
  rw [hl.1, hl.2]

theorem claim_C3_spacing_lock_amended_witness :
    (maisiRun maisiInit [MAISIAction.setCoronalSagittalSpacing 3,
        MAISIAction.setResolutionXY 512]).selectedResolutionXY = 512
    ∧ (maisiParams (maisiRun maisiInit
        [MAISIAction.setCoronalSagittalSpacing 3,
          MAISIAction.setResolutionXY 512])).spacing = [1, 1, 1] :=
  ⟨by decide, claim_C3_spacing_lock_amended
    [MAISIAction.setCoronalSagittalSpacing 3,
      MAISIAction.setResolutionXY 512] (by decide)⟩

/-- C4, as stated for "generation and segmentation flows alike", fails on
the segmentation flows: `doSegmentation` in `NVSegmentModule.vue` (and
`doSegmentWithNVSegmentCT` in unnamed part_002) retrieves and consumes the
result but never calls `removeNVSegmentResult`, so after a successful run the
identifier is still live in the cache. -/
theorem claim_C4_counterexample :
    (doSegmentation_cacheStep (setNVSegmentResult (emptyCache Nat) "img" 7)
        "img").2 = some 7
    ∧ getNVSegmentResult
        (doSegmentation_cacheStep (setNVSegmentResult (emptyCache Nat)
          "img" 7) "img").1 (some "img") = some 7 := by
  exact ⟨by decide, by decide⟩

/-- C4 (amended): the GENERATION flows (`doGenerateWithMAISI` and
`doGenerateWithNVGenerateCT`) do evict: whenever the cache lookup succeeds
and the result is consumed, the entry for the correlation identifier is
removed, so the identifier is no longer live afterwards. The segmentation
flows leave the entry in the cache (the latent leak the spec notes in §3). -/
theorem claim_C4_eviction_amended {α : Type} (c : Cache α) (id : String)
    (h : (doGenerateWithMAISI_cacheStep c id).2 ≠ none) :
    getNVGenerateResult (doGenerateWithMAISI_cacheStep c id).1 (some id)
        = none
    ∧ getNVGenerateResult (doGenerateWithNVGenerateCT_cacheStep c id).1
        (some id) = none := by
  cases hx : getNVGenerateResult c (some id) with
  | none =>
    exfalso
    apply h
    unfold doGenerateWithMAISI_cacheStep
    rw [hx]
  | some obj =>
    constructor
    · unfold doGenerateWithMAISI_cacheStep
      rw [hx]
      exact getResult_removeResult_self c id
    · unfold doGenerateWithNVGenerateCT_cacheStep
      rw [hx]
      exact getResult_removeResult_self c id

theorem claim_C4_eviction_amended_witness :
    ((doGenerateWithMAISI_cacheStep
        (setNVGenerateResult (emptyCache Nat) "g" 7) "g").2 ≠ none)
    ∧ getNVGenerateResult (doGenerateWithMAISI_cacheStep
        (setNVGenerateResult (emptyCache Nat) "g" 7) "g").1 (some "g")
        = none :=
  ⟨by decide, (claim_C4_eviction_amended
    (setNVGenerateResult (emptyCache Nat) "g" 7) "g" (by decide)).1⟩

/-- C5, as stated, fails: with sibling groups consisting of exactly one group
named "Segment Group for CT (1)", `pickUniqueSegmentGroupName` returns the
bare base name "Segment Group for CT" — the initial candidate carries no
suffix, and suffixes start at "(2)" only once the base name is taken — so the
next run does NOT produce "Segment Group for CT (2)". (No collision occurs,
which is the part of the claim that does hold.) -/
theorem claim_C5_counterexample :
    pickUniqueSegmentGroupName
        [⟨"Segment Group for CT (1)", "imgA"⟩] "CT" "imgA" "Segment Group"
        = "Segment Group for CT"
    ∧ pickUniqueSegmentGroupName
        [⟨"Segment Group for CT (1)", "imgA"⟩] "CT" "imgA" "Segment Group"
        ≠ "Segment Group for CT (2)" := by
  exact ⟨by decide, by decide⟩

/-- C5 (amended): `pickUniqueSegmentGroupName` never returns a name that
collides with the name of an existing sibling segment group (a group whose
`parentImage` is the same source image): the bare base name is used when
free, and otherwise the numeric suffix is incremented past every taken
candidate. -/
theorem claim_C5_unique_name_amended
    (metadataValues : List SegmentGroupMetadata)
    (baseName parentID pre n : String)
    (h : n ∈ (metadataValues.filter
      (fun m => m.parentImage == parentID)).map (fun m => m.name)) :
    pickUniqueSegmentGroupName metadataValues baseName parentID pre ≠ n :=
  fun heq => pickUniqueSegmentGroupName_not_mem metadataValues baseName
    parentID pre (heq ▸ h)

theorem claim_C5_unique_name_amended_witness :
    ("NV-Segment-CT for CT" ∈
      (([⟨"NV-Segment-CT for CT", "img"⟩] :
          List SegmentGroupMetadata).filter
        (fun m => m.parentImage == "img")).map (fun m => m.name))
    ∧ pickUniqueSegmentGroupName [⟨"NV-Segment-CT for CT", "img"⟩]
        "CT" "img" "NV-Segment-CT" ≠ "NV-Segment-CT for CT" :=
  ⟨by decide, claim_C5_unique_name_amended
    [⟨"NV-Segment-CT for CT", "img"⟩] "CT" "img" "NV-Segment-CT"
    "NV-Segment-CT for CT" (by decide)⟩

/-- C6, as stated, fails for the generation and segmentation flows: their
catch blocks only call `console.error`, so on remote-call rejection NO
user-visible alert is produced (the claim demands exactly one). The loading
flag does return to false, and the chat panels do append exactly one
assistant-style error message. -/
theorem claim_C6_counterexample :
    (doGenerateWithMAISI_run (emptyCache Nat) "g" RemoteOutcome.error).1
        = false
    ∧ (doGenerateWithMAISI_run (emptyCache Nat) "g"
        RemoteOutcome.error).2.1 = []
    ∧ (doSegmentation_run (emptyCache Nat) "img" RemoteOutcome.error).2.1
        = [] := by
  exact ⟨rfl, rfl, rfl⟩

/-- C6 (amended): on remote-call rejection every panel's loading flag is
false after the action completes; the chat panels append exactly one
assistant-style error message to the log (and nothing else); the generation
and segmentation panels surface NO user-visible alert — the failure is only
logged to the console. -/
theorem claim_C6_error_amended {α : Type} (log : List Message) (msg : String)
    (c : Cache α) (genId imgId : String) (h : ¬ jsTrim msg = "") :
    (sendMessageRun_reason log msg RemoteOutcome.error).2 = false
    ∧ (sendMessageRun_reason log msg RemoteOutcome.error).1
        = (log ++ [⟨jsTrim msg, Sender.user⟩])
          ++ [⟨"Sorry, an error occurred. Please try again.", Sender.bot⟩]
    ∧ (doGenerateWithMAISI_run c genId RemoteOutcome.error).1 = false
    ∧ (doGenerateWithMAISI_run c genId RemoteOutcome.error).2.1 = []
    ∧ (doSegmentation_run c imgId RemoteOutcome.error).1 = false
    ∧ (doSegmentation_run c imgId RemoteOutcome.error).2.1 = [] := by
  refine ⟨?_, ?_, rfl, rfl, rfl, rfl⟩
  · show (if jsTrim msg = "" then (log, false) else
      ((log ++ [⟨jsTrim msg, Sender.user⟩])
        ++ [⟨"Sorry, an error occurred. Please try again.", Sender.bot⟩],
        false)).2 = false
    rw [if_neg h]
  · show (if jsTrim msg = "" then (log, false) else
      ((log ++ [⟨jsTrim msg, Sender.user⟩])
        ++ [⟨"Sorry, an error occurred. Please try again.", Sender.bot⟩],
        false)).1
      = (log ++ [⟨jsTrim msg, Sender.user⟩])
        ++ [⟨"Sorry, an error occurred. Please try again.", Sender.bot⟩]
    rw [if_neg h]

theorem claim_C6_error_amended_witness :
    (¬ jsTrim "hi" = "")
    ∧ (sendMessageRun_reason [] "hi" RemoteOutcome.error).1
        = (([] : List Message) ++ [⟨jsTrim "hi", Sender.user⟩])
          ++ [⟨"Sorry, an error occurred. Please try again.",
            Sender.bot⟩] :=
  ⟨by decide, (claim_C6_error_amended [] "hi" (emptyCache Nat) "g" "img"
    (by decide)).2.1⟩

/-- C7: from the empty cache, every sequence of set/get/remove operations
preserves the invariant that an identifier is on the ordered id list iff it
is a key of the mapping, with the list duplicate-free; moreover `set` on an
existing id leaves the ordered list unchanged (no re-append) while
overwriting the payload. -/
theorem claim_C7_cache_invariant {α : Type} (ops : List (CacheOp α))
    (c : Cache α) (id : String) (v : α) :
    CacheInv (runOps (emptyCache α) ops)
    ∧ (hasKey c.resultsById id = true → (setResult c id v).ids = c.ids)
    ∧ recordGet? (setResult c id v).resultsById id = some v := by
  refine ⟨cacheInv_runOps ops (emptyCache α) (cacheInv_empty α),
    fun hk => setResult_ids_of_hasKey v hk, ?_⟩
  rw [setResult_resultsById]
  exact recordGet?_recordSet_self c.resultsById id v

theorem claim_C7_cache_invariant_witness :
    hasKey (Cache.mk ["a"] [("a", (1 : Nat))]).resultsById "a" = true
    ∧ (setResult (Cache.mk ["a"] [("a", (1 : Nat))]) "a" 2).ids = ["a"] :=
  ⟨by decide, (claim_C7_cache_invariant []
    (Cache.mk ["a"] [("a", 1)]) "a" 2).2.1 (by decide)⟩

/-- C8: the getters are total (they are functions, so they never throw):
`get` returns the not-found sentinel on an undefined id and on the empty
string, returns the stored payload for a non-empty id that is a key of the
mapping, and returns the sentinel for an id that is not a key (shown for the
nv-generate and vista3d getters, whose bodies are the shared replica). -/
theorem claim_C8_get_total {α : Type} (c : Cache α) (cv : Cache BinData)
    (id : String) (v : α) :
    getNVGenerateResult c none = none
    ∧ getNVGenerateResult c (some "") = none
    ∧ getVista3dResult cv none = none
    ∧ getVista3dResult cv (some "") = none
    ∧ (¬ id = "" → recordGet? c.resultsById id = some v →
        getNVGenerateResult c (some id) = some v)
    ∧ (hasKey c.resultsById id = false →
        getNVGenerateResult c (some id) = none) := by
  refine ⟨rfl, by simp [getNVGenerateResult, getResult], rfl,
    by simp [getVista3dResult, getResult], ?_, ?_⟩
  · intro hid hget
    rw [show getNVGenerateResult c (some id) = getResult c (some id)
      from rfl, getResult_some c id hid, hget]
  · intro hk
    by_cases hid : id = ""
    · subst hid
      simp [getNVGenerateResult, getResult]
    · rw [show getNVGenerateResult c (some id) = getResult c (some id)
        from rfl, getResult_some c id hid]
      exact recordGet?_eq_none_of_not_hasKey c.resultsById id hk

theorem claim_C8_get_total_witness :
    (¬ "a" = "")
    ∧ recordGet? (Cache.mk ["a"] [("a", (3 : Nat))]).resultsById "a"
        = some 3
    ∧ getNVGenerateResult (Cache.mk ["a"] [("a", (3 : Nat))]) (some "a")
        = some 3 :=
  ⟨by decide, by decide, (claim_C8_get_total
    (Cache.mk ["a"] [("a", 3)]) (emptyCache BinData) "a" 3).2.2.2.2.1
    (by decide) (by decide)⟩

/-- C9: after `remove(id)` a subsequent `get(id)` returns the not-found
sentinel; `remove` on an id that is not a key is a no-op returning the state
unchanged (and, being a function, does not throw); and on an
invariant-satisfying state, `remove(id)` leaves `id` neither on the ordered
list nor among the mapping keys. -/
theorem claim_C9_remove {α : Type} (c : Cache α) (cv : Cache BinData)
    (id : String) :
    getNVGenerateResult (removeNVGenerateResult c id) (some id) = none
    ∧ getVista3dResult (removeVista3dResult cv id) (some id) = none
    ∧ (hasKey c.resultsById id = false → removeNVGenerateResult c id = c)
    ∧ (CacheInv c → id ∉ (removeNVGenerateResult c id).ids
        ∧ hasKey (removeNVGenerateResult c id).resultsById id = false) := by
  refine ⟨getResult_removeResult_self c id,
    getResult_removeResult_self cv id,
    fun hk => removeResult_of_not_hasKey hk, ?_⟩
  rintro ⟨hmem, hnd⟩
  show id ∉ (removeResult c id).ids
    ∧ hasKey (removeResult c id).resultsById id = false
  by_cases hk : hasKey c.resultsById id
  · rw [removeResult_of_hasKey hk]
    constructor
    · intro hin
      exact ((mem_spliceFirst_iff c.ids id id hnd).mp hin).2 rfl
    · cases hx : hasKey (recordDelete c.resultsById id) id
      · rfl
      · exact absurd rfl ((hasKey_recordDelete_iff _ _ _).mp hx).2
  · have hkf : hasKey c.resultsById id = false := by
      cases hx : hasKey c.resultsById id
      · rfl
      · exact absurd hx hk
    rw [removeResult_of_not_hasKey hkf]
    exact ⟨fun hin => hk ((hmem id).mp hin), hkf⟩

theorem claim_C9_remove_witness :
    hasKey (emptyCache Nat).resultsById "x" = false
    ∧ removeNVGenerateResult (emptyCache Nat) "x" = emptyCache Nat :=
  ⟨by decide, (claim_C9_remove (emptyCache Nat) (emptyCache BinData)
    "x").2.2.1 (by decide)⟩

/-- C10: every payload reachable in the vista3d store is a Blob: starting
from the empty store, after any sequence of `setVista3dResult` pushes
(whatever mix of Blob / ArrayBuffer / Uint8Array inputs) and removals,
`getVista3dResult` returns either the sentinel or a Blob-shaped value. -/
theorem claim_C10_blob_invariant (ops : List Vista3dOp) (id : String)
    (b : BinData)
    (h : getVista3dResult (runVista3dOps (emptyCache BinData) ops)
      (some id) = some b) :
    isBlob b = true := by
  have hall : AllBlobs (runVista3dOps (emptyCache BinData) ops) :=
    allBlobs_runVista3dOps ops (emptyCache BinData)
      (fun e he => absurd he (by simp [emptyCache]))
  rcases getResult_mem _ id b h with ⟨e, he, rfl⟩
  exact hall e he

theorem claim_C10_blob_invariant_witness :
    getVista3dResult (runVista3dOps (emptyCache BinData)
        [Vista3dOp.set "x" (BinData.arrayBuffer [5])]) (some "x")
        = some (BinData.blob [[5]])
    ∧ isBlob (BinData.blob [[5]]) = true :=
  ⟨by decide, claim_C10_blob_invariant
    [Vista3dOp.set "x" (BinData.arrayBuffer [5])] "x"
    (BinData.blob [[5]]) (by decide)⟩

end VolViewDemo
